import Mathlib

/-!
# Verification of the polyblocks/clob-proxy request pipeline

Shallow embedding of `src/server.js` (a Fastify reverse proxy in front of a
fixed upstream): the Gatekeeper (API-key check), the Forwarder (header
filtering, body handling, upstream call, response relay, 502 translation)
and the Health Reporter.  JavaScript's `JSON.stringify` / `JSON.parse` pair
is modelled by an executable serializer and decoder over a JSON value type
(numbers modelled as integers; JSON number literals of the proxied bodies
the spec discusses are integral, and fractional doubles are outside this
embedding).
-/

/-- JSON values as produced by the host JSON parser.  Numbers are modelled
as integers (see module comment). -/
inductive JVal where
  | null
  | bool (b : Bool)
  | num (n : Int)
  | str (s : String)
  | arr (elems : List JVal)
  | obj (fields : List (String × JVal))
deriving Repr

/-- Decimal digit character for `d < 10`. -/
def digitChar : Nat → Char
  | 0 => '0' | 1 => '1' | 2 => '2' | 3 => '3' | 4 => '4'
  | 5 => '5' | 6 => '6' | 7 => '7' | 8 => '8' | _ => '9'

/-- Lower-case hexadecimal digit character for `d < 16`
(`JSON.stringify` emits lower-case hex in `\u00XX` escapes). -/
def hexChar : Nat → Char
  | 0 => '0' | 1 => '1' | 2 => '2' | 3 => '3' | 4 => '4'
  | 5 => '5' | 6 => '6' | 7 => '7' | 8 => '8' | 9 => '9'
  | 10 => 'a' | 11 => 'b' | 12 => 'c' | 13 => 'd' | 14 => 'e' | _ => 'f'

/-- Decimal digits of a natural number, most significant first. -/
def natToDigits (n : Nat) : List Char :=
  if _h : n < 10 then [digitChar n]
  else natToDigits (n / 10) ++ [digitChar (n % 10)]
decreasing_by exact Nat.div_lt_self (by omega) (by omega)

/-- Escaping of one character inside a `JSON.stringify` string literal:
quote and backslash get two-character escapes, the named control characters
get their short escapes, the remaining control characters get `\u00XX`,
everything else is emitted verbatim. -/
def escChar (c : Char) : List Char :=
  if c = '"' then ['\\', '"']
  else if c = '\\' then ['\\', '\\']
  else if c = '\x08' then ['\\', 'b']
  else if c = '\x0c' then ['\\', 'f']
  else if c = '\n' then ['\\', 'n']
  else if c = '\r' then ['\\', 'r']
  else if c = '\t' then ['\\', 't']
  else if c.toNat < 32 then
    ['\\', 'u', '0', '0', hexChar (c.toNat / 16), hexChar (c.toNat % 16)]
  else [c]

/-- Escape every character of a string body. -/
def escList (cs : List Char) : List Char := cs.flatMap escChar

/-- Serialization of a string by `JSON.stringify`: quoted, escaped. -/
def serStr (s : String) : List Char := '"' :: escList s.data ++ ['"']

/-- Serialization of an (integral) JSON number by `JSON.stringify`. -/
def serInt (n : Int) : List Char :=
  if n < 0 then '-' :: natToDigits n.natAbs else natToDigits n.natAbs

mutual
/-- The serializer `JSON.stringify`, emitting the compact (whitespace-free)
form the host serializer produces when called with a single argument. -/
def serJ : JVal → List Char
  | .null => "null".data
  | .bool true => "true".data
  | .bool false => "false".data
  | .num n => serInt n
  | .str s => serStr s
  | .arr es => '[' :: serArr es
  | .obj fs => '\x7b' :: serObj fs

/-- Serialize array elements (after the opening bracket), including the
closing bracket. -/
def serArr : List JVal → List Char
  | [] => [']']
  | [e] => serJ e ++ [']']
  | e :: es => serJ e ++ ',' :: serArr (es)

/-- Serialize object fields (after the opening brace), including the
closing brace. -/
def serObj : List (String × JVal) → List Char
  | [] => ['\x7d']
  | [(k, v)] => serStr k ++ ':' :: serJ v ++ ['\x7d']
  | (k, v) :: fs => serStr k ++ ':' :: serJ v ++ ',' :: serObj (fs)
end

/-- The string form of `JSON.stringify v`. -/
def jstringify (v : JVal) : String := String.mk (serJ v)

/-- Numeric value of a decimal digit character. -/
def digitVal (c : Char) : Nat := c.toNat - 48

/-- Fold a digit list into the natural number it denotes. -/
def digitsToNat (ds : List Char) : Nat :=
  ds.foldl (fun a c => a * 10 + digitVal c) 0

/-- Parse a run of decimal digits; fails when none is present. -/
def pNum (cs : List Char) : Option (Nat × List Char) :=
  let ds := cs.takeWhile (·.isDigit)
  if ds.isEmpty then none
  else some (digitsToNat ds, cs.dropWhile (·.isDigit))

/-- Numeric value of a (lower-case) hexadecimal digit character. -/
def hexVal (c : Char) : Option Nat :=
  if '0' ≤ c ∧ c ≤ '9' then some (c.toNat - 48)
  else if 'a' ≤ c ∧ c ≤ 'f' then some (c.toNat - 87)
  else none

/-- Combine four hex digits of a `\uXXXX` escape into a code point. -/
def hex4 (h1 h2 h3 h4 : Char) : Option Nat := do
  let v1 ← hexVal h1
  let v2 ← hexVal h2
  let v3 ← hexVal h3
  let v4 ← hexVal h4
  pure (((v1 * 16 + v2) * 16 + v3) * 16 + v4)

/-- The character denoted by a single-character escape (`\"`, `\\`, `\/`,
`\b`, `\f`, `\n`, `\r`, `\t`); `none` for an invalid escape. -/
def unesc1 (c : Char) : Option Char :=
  if c = '"' then some '"'
  else if c = '\\' then some '\\'
  else if c = '/' then some '/'
  else if c = 'b' then some '\x08'
  else if c = 'f' then some '\x0c'
  else if c = 'n' then some '\n'
  else if c = 'r' then some '\r'
  else if c = 't' then some '\t'
  else none

/-- Parse the remainder of a JSON string literal (the opening quote has
already been consumed), un-escaping as `JSON.parse` does; returns the
decoded string and the rest of the input. -/
def pStr (cs : List Char) : Option (String × List Char) :=
  match cs with
  | [] => none
  | c :: rest =>
    if c = '"' then some ("", rest)
    else if c = '\\' then
      match rest with
      | [] => none
      | e :: rest1 =>
        if e = 'u' then
          match rest1 with
          | h1 :: h2 :: h3 :: h4 :: rest2 =>
            match hex4 h1 h2 h3 h4 with
            | some n => (pStr rest2).map (fun p => (String.mk (Char.ofNat n :: p.1.data), p.2))
            | none => none
          | _ => none
        else
          match unesc1 e with
          | some ch => (pStr rest1).map (fun p => (String.mk (ch :: p.1.data), p.2))
          | none => none
    else (pStr rest).map (fun p => (String.mk (c :: p.1.data), p.2))
termination_by cs.length
decreasing_by all_goals (simp_all; try omega)

/-- Match an expected literal tail (such as `ull` after `n`); returns the
unconsumed input on success. -/
def pKeyword : List Char → List Char → Option (List Char)
  | [], cs => some cs
  | k :: ks, c :: cs => if c = k then pKeyword ks cs else none
  | _ :: _, [] => none

mutual
/-- Fuel-indexed JSON decoder, modelling `JSON.parse` on the grammar as
emitted by `JSON.stringify` (compact form: `stringify` emits no
insignificant whitespace, so none is skipped).  Returns the parsed value
and the unconsumed input. -/
def pJ : Nat → List Char → Option (JVal × List Char)
  | 0, _ => none
  | fuel + 1, cs =>
    match cs with
    | [] => none
    | c :: rest =>
      if c = 'n' then (pKeyword ['u', 'l', 'l'] rest).map (fun r => (.null, r))
      else if c = 't' then (pKeyword ['r', 'u', 'e'] rest).map (fun r => (.bool true, r))
      else if c = 'f' then (pKeyword ['a', 'l', 's', 'e'] rest).map (fun r => (.bool false, r))
      else if c = '"' then (pStr rest).map (fun p => (.str p.1, p.2))
      else if c = '[' then
        match rest with
        | ']' :: r => some (.arr [], r)
        | _ => (pItems fuel rest).map (fun p => (.arr p.1, p.2))
      else if c = '\x7b' then
        match rest with
        | '\x7d' :: r => some (.obj [], r)
        | _ => (pFields fuel rest).map (fun p => (.obj p.1, p.2))
      else if c = '-' then (pNum rest).map (fun p => (.num (-(p.1 : Int)), p.2))
      else if c.isDigit then (pNum (c :: rest)).map (fun p => (.num (p.1 : Int), p.2))
      else none

/-- Parse one or more comma-separated array elements followed by `]`. -/
def pItems : Nat → List Char → Option (List JVal × List Char)
  | 0, _ => none
  | fuel + 1, cs => do
    let (v, r) ← pJ fuel cs
    match r with
    | ',' :: r2 => do
      let (vs, r3) ← pItems fuel r2
      pure (v :: vs, r3)
    | ']' :: r2 => pure ([v], r2)
    | _ => none

/-- Parse one or more comma-separated `"key":value` object members followed
by `}`. -/
def pFields : Nat → List Char → Option (List (String × JVal) × List Char)
  | 0, _ => none
  | fuel + 1, cs =>
    match cs with
    | '"' :: r => do
      let (k, r1) ← pStr r
      match r1 with
      | ':' :: r2 => do
        let (v, r3) ← pJ fuel r2
        match r3 with
        | ',' :: r4 => do
          let (fs, r5) ← pFields fuel r4
          pure ((k, v) :: fs, r5)
        | '\x7d' :: r4 => pure ([(k, v)], r4)
        | _ => none
      | _ => none
    | _ => none
end

/-- The decoder `JSON.parse`: decode a whole string (the input's length plus one is
enough fuel, since every recursive descent consumes input); fails when the
input is not a single complete JSON text. -/
def jparse (s : String) : Option JVal :=
  match pJ (s.length + 1) s.data with
  | some (v, []) => some v
  | _ => none

/-- Input suffixes a serialized number may legally be followed by: empty, or
starting with a non-digit (so the number parser stops exactly at the
boundary).  Every context in which `serJ` emits a value satisfies this. -/
def goodRest : List Char → Bool
  | [] => true
  | c :: _ => !c.isDigit

/-! ## The proxy server, from `src/server.js`

The per-request pipeline of the catch-all route `app.all("/*")` (lines
34–98), the health route (line 24) and the routing between them.  Header
maps are modelled as ordered lists of key/value pairs (Node lowercases
inbound header names, and the `fetch` `Headers` iteration also yields
lowercase names; keys are carried as given and compared the way each source
line compares them).  The `fetch` call is a parameter: a function from the
outbound request to either an upstream response or a thrown error. -/

/-- Header map: ordered key/value pairs. -/
abbrev Headers := List (String × String)

/-- Property lookup `headers[k]` on a JS header object: first binding of
the exact key, `undefined` (`none`) when absent. -/
def hdrLookup (hs : Headers) (k : String) : Option String :=
  (hs.find? (fun p => p.1 == k)).map (fun p => p.2)

/-- Resolved configuration (read from the environment at startup):
`CLOB_TARGET` and `API_KEY` (lines 19–20).  The listen port does not enter
the per-request pipeline. -/
structure Config where
  clobTarget : String
  apiKey : String

/-- The JS value of `req.body`: `undefined` when no body was parsed, a
string (from the raw catch-all content-type parser of lines 27–31, or a
JSON-parsed string body), or a non-string JSON value from the JSON body
parser. -/
inductive ReqBody where
  | undef
  | str (s : String)
  | val (v : JVal)

/-- One inbound request: method, raw path+query (`req.url`), header map
(`req.headers`), parsed body (`req.body`). -/
structure InboundRequest where
  method : String
  url : String
  headers : Headers
  body : ReqBody

/-- JavaScript truthiness of a JSON value: `null`, `false`, `0` and `""`
are falsy, everything else truthy. -/
def jsTruthy : JVal → Bool
  | .null => false
  | .bool b => b
  | .num n => n != 0
  | .str s => s != ""
  | .arr _ => true
  | .obj _ => true

/-- JavaScript truthiness of `req.body` (`undefined` is falsy). -/
def bodyTruthy : ReqBody → Bool
  | .undef => false
  | .str s => s != ""
  | .val v => jsTruthy v

/-- Drop everything up to and including the `://` scheme separator. -/
def afterSchemeSep : List Char → List Char
  | ':' :: '/' :: '/' :: rest => rest
  | _ :: rest => afterSchemeSep rest
  | [] => []

/-- The `host` component of `new URL(u)`: the authority between the scheme
separator and the first `/`, `?` or `#` (line 56 applies this to the
upstream base URL, which carries no userinfo). -/
def urlHost (u : String) : String :=
  String.mk ((afterSchemeSep u.data).takeWhile (fun c => c != '/' && c != '?' && c != '#'))

/-- Lowercasing of a JS header name (`key.toLowerCase()`; header names are
ASCII, on which JS and ASCII lowercasing agree). -/
def lowerName (s : String) : String := String.mk (s.data.map Char.toLower)

/-- Request-leg header names skipped by the forwarding loop (lines 46–53),
compared on the lowercased key. -/
def isDroppedReqHeader (k : String) : Bool :=
  let lower := lowerName k
  lower == "host" || lower == "x-proxy-key" || lower == "connection" ||
    lower == "keep-alive" || lower == "transfer-encoding" || lower == "content-length"

/-- The `forwardHeaders` object after the loop of lines 43–55 and the
`host` assignment of line 56: every non-dropped inbound header in order,
then `host` bound to the upstream authority (the inbound `host` was
dropped, so the assignment appends a fresh binding). -/
def forwardHeaders (cfg : Config) (req : InboundRequest) : Headers :=
  (req.headers.filter (fun p => !isDroppedReqHeader p.1)) ++ [("host", urlHost cfg.clobTarget)]

/-- The guard of line 60: a body is forwarded only for non-GET/HEAD methods
with a truthy `req.body`. -/
def sendsBody (req : InboundRequest) : Bool :=
  req.method != "GET" && req.method != "HEAD" && bodyTruthy req.body

/-- The `requestBody` variable (lines 59–63): for a forwarded body, a JS
string is passed through and any other value is `JSON.stringify`d;
otherwise `undefined`. -/
def requestBody (req : InboundRequest) : Option String :=
  if sendsBody req then
    match req.body with
    | .undef => none
    | .str s => some s
    | .val v =>
      match v with
      | .str s => some s
      | _ => some (jstringify v)
  else none

/-- The assignment of line 62,
`forwardHeaders["content-type"] = forwardHeaders["content-type"] || "application/json"`:
keep a truthy (non-empty) existing value, else bind `application/json`. -/
def withDefaultContentType (hs : Headers) : Headers :=
  match hdrLookup hs "content-type" with
  | some v =>
    if v == "" then
      hs.map (fun p => if p.1 == "content-type" then (p.1, "application/json") else p)
    else hs
  | none => hs ++ [("content-type", "application/json")]

/-- The outbound `fetch` call: target URL (line 40) plus the options object
of lines 66–71.  The options the source passes are exactly `method`,
`headers`, `body` and `redirect`; the API's abort/timeout option is absent,
recorded here as `timeoutMs := none`. -/
structure OutboundRequest where
  url : String
  method : String
  headers : Headers
  body : Option String
  redirect : String
  timeoutMs : Option Nat

/-- Build the outbound request the handler passes to `fetch` (lines 40,
43–63, 66–71). -/
def fetchInit (cfg : Config) (req : InboundRequest) : OutboundRequest :=
  { url := cfg.clobTarget ++ req.url
    method := req.method
    headers :=
      if sendsBody req then withDefaultContentType (forwardHeaders cfg req)
      else forwardHeaders cfg req
    body := requestBody req
    redirect := "follow"
    timeoutMs := none }

/-- A thrown JS `Error`: `name` and `message` (the values `fetch` rejects
with are `Error` instances). -/
structure JsError where
  name : String
  message : String

/-- JavaScript `String(err)` via `Error.prototype.toString`:
`name` and `message` joined by `": "`, with an empty side omitted. -/
def errString (e : JsError) : String :=
  if e.name = "" then e.message
  else if e.message = "" then e.name
  else e.name ++ ": " ++ e.message

/-- The upstream `fetch` response: status, header map (as iterated by
`response.headers.forEach`, lowercase names), and `response.body` — a byte
stream handle, or `null` when the upstream sent no body. -/
structure UpstreamResponse where
  status : Nat
  headers : Headers
  body : Option Nat

/-- Response-leg header names skipped by the relay loop (line 77). -/
def isDroppedRespHeader (k : String) : Bool :=
  let lower := lowerName k
  lower == "transfer-encoding" || lower == "connection" || lower == "content-encoding"

/-- The `responseHeaders` object of lines 74–79. -/
def responseHeaders (hs : Headers) : Headers :=
  hs.filter (fun p => !isDroppedRespHeader p.1)

/-- What `reply.send` receives: a plain string, a JSON value (Fastify
serializes objects), or a pass-through of an upstream byte stream
(`Readable.fromWeb(response.body)`, line 85) identified by its handle —
the stream case is what makes the relay incremental rather than buffered. -/
inductive ReplyBody where
  | text (s : String)
  | json (v : JVal)
  | stream (id : Nat)

/-- The response sent to the original caller: status, explicitly set
headers, body. -/
structure Reply where
  status : Nat
  headers : Headers
  body : ReplyBody

/-- The 401 body of line 37. -/
def err401Body : JVal := .obj [("error", .str "Unauthorized — invalid X-Proxy-Key")]

/-- The 502 body of lines 93–96. -/
def err502Body (detail : String) : JVal :=
  .obj [("error", .str "Proxy error"), ("detail", .str detail)]

/-- The Gatekeeper condition of line 36:
`API_KEY && req.method !== "GET" && req.method !== "HEAD" && req.headers["x-proxy-key"] !== API_KEY`
(an empty `API_KEY` is falsy; a missing header is `undefined`, which never
equals the non-empty key). -/
def authRejected (cfg : Config) (req : InboundRequest) : Bool :=
  cfg.apiKey != "" && req.method != "GET" && req.method != "HEAD" &&
    hdrLookup req.headers "x-proxy-key" != some cfg.apiKey

/-- Relay of a successful upstream response (lines 82–89): upstream status,
filtered headers, and either the pass-through of the upstream stream or
`reply.send("")` when `response.body` is `null`. -/
def relaySuccess (resp : UpstreamResponse) : Reply :=
  { status := resp.status
    headers := responseHeaders resp.headers
    body :=
      match resp.body with
      | some sid => .stream sid
      | none => .text "" }

/-- The catch-all handler `app.all("/*")` (lines 34–98): Gatekeeper check,
then the `fetch` in a `try`/`catch` translating any thrown error into the
502 reply.  The second component records the outbound request issued
(`none` when the upstream was never contacted). -/
def handleProxy (cfg : Config) (req : InboundRequest)
    (fetchExec : OutboundRequest → Except JsError UpstreamResponse) :
    Reply × Option OutboundRequest :=
  if authRejected cfg req then
    ({ status := 401, headers := [], body := .json err401Body }, none)
  else
    match fetchExec (fetchInit cfg req) with
    | .ok resp => (relaySuccess resp, some (fetchInit cfg req))
    | .error e =>
      ({ status := 502, headers := [], body := .json (err502Body (errString e)) },
        some (fetchInit cfg req))

/-- The Health Reporter (line 24): Fastify sends the returned object with
the default 200 status. -/
def healthReply (cfg : Config) : Reply :=
  { status := 200, headers := [],
    body := .json (.obj [("status", .str "ok"), ("region", .str "eu"),
                         ("target", .str cfg.clobTarget)]) }

/-- The path component of a request target, as used for route matching
(the query string is not part of the route). -/
def urlPath (u : String) : String := String.mk (u.data.takeWhile (fun c => c != '?'))

/-- Routing: the registered `GET /health` route answers exactly GET
requests whose path is `/health`; everything else reaches the catch-all
proxy route. -/
def handleRequest (cfg : Config) (req : InboundRequest)
    (fetchExec : OutboundRequest → Except JsError UpstreamResponse) :
    Reply × Option OutboundRequest :=
  if req.method == "GET" && urlPath req.url == "/health" then (healthReply cfg, none)
  else handleProxy cfg req fetchExec

/-! ## Round-trip of the JSON codec: digits and numbers -/

theorem isDigit_digitChar (d : Nat) : (digitChar d).isDigit = true := by
  unfold digitChar
  split <;> decide

theorem digitVal_digitChar (d : Nat) (h : d < 10) : digitVal (digitChar d) = d := by
  interval_cases d <;> decide

theorem natToDigits_ne_nil (n : Nat) : natToDigits n ≠ [] := by
  unfold natToDigits
  split
  · simp
  · simp

theorem natToDigits_all_digits (n : Nat) : ∀ c ∈ natToDigits n, c.isDigit = true := by
  unfold natToDigits
  split
  · intro c hc
    rw [List.mem_singleton] at hc
    subst hc
    exact isDigit_digitChar n
  · intro c hc
    rcases List.mem_append.1 hc with h1 | h2
    · exact natToDigits_all_digits (n / 10) c h1
    · rw [List.mem_singleton] at h2
      subst h2
      exact isDigit_digitChar (n % 10)
termination_by n
decreasing_by exact Nat.div_lt_self (by omega) (by omega)

theorem foldl_natToDigits (n : Nat) :
    ∀ a : Nat, (natToDigits n).foldl (fun x c => x * 10 + digitVal c) a
      = a * 10 ^ (natToDigits n).length + n := by
  unfold natToDigits
  split
  · rename_i h
    intro a
    simp [digitVal_digitChar n h]
  · rename_i h
    intro a
    rw [List.foldl_append, foldl_natToDigits (n / 10) a]
    simp only [List.foldl_cons, List.foldl_nil, List.length_append, List.length_cons,
      List.length_nil, Nat.zero_add, Nat.pow_succ]
    rw [digitVal_digitChar (n % 10) (Nat.mod_lt n (by omega))]
    have hdm : n / 10 * 10 + n % 10 = n := by omega
    calc (a * 10 ^ (natToDigits (n / 10)).length + n / 10) * 10 + n % 10
        = a * (10 ^ (natToDigits (n / 10)).length * 10) + (n / 10 * 10 + n % 10) := by ring
      _ = a * (10 ^ (natToDigits (n / 10)).length * 10) + n := by rw [hdm]
termination_by n
decreasing_by exact Nat.div_lt_self (by omega) (by omega)

theorem digitsToNat_natToDigits (n : Nat) : digitsToNat (natToDigits n) = n := by
  unfold digitsToNat
  rw [foldl_natToDigits n 0]
  simp

theorem takeWhile_append_all {α : Type} {p : α → Bool} :
    ∀ {l r : List α}, (∀ c ∈ l, p c = true) → (l ++ r).takeWhile p = l ++ r.takeWhile p := by
  intro l
  induction l with
  | nil => intro r _; simp
  | cons c cs ih =>
    intro r h
    have hc : p c = true := h c (by simp)
    simp only [List.cons_append, List.takeWhile_cons, hc, if_true]
    rw [ih (fun x hx => h x (by simp [hx]))]

theorem dropWhile_append_all {α : Type} {p : α → Bool} :
    ∀ {l r : List α}, (∀ c ∈ l, p c = true) → (l ++ r).dropWhile p = r.dropWhile p := by
  intro l
  induction l with
  | nil => intro r _; simp
  | cons c cs ih =>
    intro r h
    have hc : p c = true := h c (by simp)
    simp only [List.cons_append, List.dropWhile_cons, hc, if_true]
    exact ih (fun x hx => h x (by simp [hx]))

theorem takeWhile_goodRest {rest : List Char} (hr : goodRest rest = true) :
    rest.takeWhile (·.isDigit) = [] := by
  cases rest with
  | nil => simp
  | cons c cs =>
    simp only [goodRest, Bool.not_eq_true'] at hr
    simp [List.takeWhile_cons, hr]

theorem dropWhile_goodRest {rest : List Char} (hr : goodRest rest = true) :
    rest.dropWhile (·.isDigit) = rest := by
  cases rest with
  | nil => simp
  | cons c cs =>
    simp only [goodRest, Bool.not_eq_true'] at hr
    simp [List.dropWhile_cons, hr]

theorem pNum_natToDigits (n : Nat) {rest : List Char} (hr : goodRest rest = true) :
    pNum (natToDigits n ++ rest) = some (n, rest) := by
  unfold pNum
  rw [takeWhile_append_all (natToDigits_all_digits n),
    dropWhile_append_all (natToDigits_all_digits n),
    takeWhile_goodRest hr, dropWhile_goodRest hr, List.append_nil]
  simp [List.isEmpty_eq_true, natToDigits_ne_nil n, digitsToNat_natToDigits n]

/-! ## Round-trip of the JSON codec: strings -/

theorem hexVal_hexChar (d : Nat) (h : d < 16) : hexVal (hexChar d) = some d := by
  interval_cases d <;> decide

theorem hex4_ctl (m : Nat) (h : m < 32) :
    hex4 '0' '0' (hexChar (m / 16)) (hexChar (m % 16)) = some m := by
  unfold hex4
  rw [show hexVal '0' = some 0 from by decide,
    hexVal_hexChar (m / 16) (by omega), hexVal_hexChar (m % 16) (by omega)]
  simp only [Option.bind_eq_bind, Option.some_bind, Option.pure_def, Option.some.injEq]
  omega

theorem pStr_quote (rest : List Char) : pStr ('"' :: rest) = some ("", rest) := by
  rw [pStr.eq_def]
  simp

theorem pStr_esc1 (e : Char) (rest : List Char) (he : e ≠ 'u') (ch : Char)
    (hu : unesc1 e = some ch) :
    pStr ('\\' :: e :: rest) = (pStr rest).map (fun p => (String.mk (ch :: p.1.data), p.2)) := by
  rw [pStr.eq_def]
  simp [he, hu]

theorem pStr_escU (h1 h2 h3 h4 : Char) (rest : List Char) (n : Nat)
    (hx : hex4 h1 h2 h3 h4 = some n) :
    pStr ('\\' :: 'u' :: h1 :: h2 :: h3 :: h4 :: rest)
      = (pStr rest).map (fun p => (String.mk (Char.ofNat n :: p.1.data), p.2)) := by
  rw [pStr.eq_def]
  simp [hx]

theorem pStr_plain (c : Char) (rest : List Char) (h1 : c ≠ '"') (h2 : c ≠ '\\') :
    pStr (c :: rest) = (pStr rest).map (fun p => (String.mk (c :: p.1.data), p.2)) := by
  rw [pStr.eq_def]
  simp [h1, h2]

theorem pStr_escList : ∀ (cs rest : List Char),
    pStr (escList cs ++ '"' :: rest) = some (String.mk cs, rest) := by
  intro cs
  induction cs with
  | nil =>
    intro rest
    simpa [escList] using pStr_quote rest
  | cons c cs ih =>
    intro rest
    have hstep : escList (c :: cs) = escChar c ++ escList cs := by
      simp [escList]
    rw [hstep, List.append_assoc]
    unfold escChar
    by_cases h1 : c = '"'
    · subst h1
      rw [if_pos rfl]
      simp [pStr_esc1 '"' _ (by decide) '"' (by decide), ih rest]
    · rw [if_neg h1]
      by_cases h2 : c = '\\'
      · subst h2
        rw [if_pos rfl]
        simp [pStr_esc1 '\\' _ (by decide) '\\' (by decide), ih rest]
      · rw [if_neg h2]
        by_cases h3 : c = '\x08'
        · subst h3
          rw [if_pos rfl]
          simp [pStr_esc1 'b' _ (by decide) '\x08' (by decide), ih rest]
        · rw [if_neg h3]
          by_cases h4 : c = '\x0c'
          · subst h4
            rw [if_pos rfl]
            simp [pStr_esc1 'f' _ (by decide) '\x0c' (by decide), ih rest]
          · rw [if_neg h4]
            by_cases h5 : c = '\n'
            · subst h5
              rw [if_pos rfl]
              simp [pStr_esc1 'n' _ (by decide) '\n' (by decide), ih rest]
            · rw [if_neg h5]
              by_cases h6 : c = '\r'
              · subst h6
                rw [if_pos rfl]
                simp [pStr_esc1 'r' _ (by decide) '\r' (by decide), ih rest]
              · rw [if_neg h6]
                by_cases h7 : c = '\t'
                · subst h7
                  rw [if_pos rfl]
                  simp [pStr_esc1 't' _ (by decide) '\t' (by decide), ih rest]
                · rw [if_neg h7]
                  by_cases h8 : c.toNat < 32
                  · rw [if_pos h8]
                    simp only [List.cons_append, List.nil_append]
                    rw [pStr_escU _ _ _ _ _ c.toNat (hex4_ctl c.toNat h8), ih rest]
                    simp [Char.ofNat_toNat]
                  · rw [if_neg h8]
                    simp only [List.cons_append, List.nil_append]
                    rw [pStr_plain c _ h1 h2, ih rest]
                    rfl

/-! ## Round-trip of the JSON codec: serializer shape facts -/

theorem pKeyword_append : ∀ (ks rest : List Char), pKeyword ks (ks ++ rest) = some rest := by
  intro ks
  induction ks with
  | nil => intro rest; simp [pKeyword]
  | cons k ks ih => intro rest; simp [pKeyword, ih]

theorem serJ_cons (v : JVal) : ∃ c cs, serJ v = c :: cs ∧ c ≠ ']' ∧ c ≠ '\x7d' := by
  cases v with
  | null => exact ⟨'n', _, rfl, by decide, by decide⟩
  | bool b =>
    cases b with
    | true => exact ⟨'t', _, rfl, by decide, by decide⟩
    | false => exact ⟨'f', _, rfl, by decide, by decide⟩
  | num n =>
    show ∃ c cs, serInt n = c :: cs ∧ c ≠ ']' ∧ c ≠ '\x7d'
    unfold serInt
    split
    · exact ⟨'-', _, rfl, by decide, by decide⟩
    · obtain ⟨d, ds, h⟩ := List.exists_cons_of_ne_nil (natToDigits_ne_nil n.natAbs)
      have hd : d.isDigit = true := natToDigits_all_digits n.natAbs d (by rw [h]; simp)
      refine ⟨d, ds, h, ?_, ?_⟩
      · rintro rfl; simp at hd
      · rintro rfl; simp at hd
  | str s => exact ⟨'"', _, rfl, by decide, by decide⟩
  | arr es => exact ⟨'[', serArr es, rfl, by decide, by decide⟩
  | obj fs => exact ⟨'\x7b', serObj fs, rfl, by decide, by decide⟩

theorem serJ_length_pos (v : JVal) : 0 < (serJ v).length := by
  obtain ⟨c, cs, h, _, _⟩ := serJ_cons v
  simp [h]

theorem serArr_length_pos (es : List JVal) : 0 < (serArr es).length := by
  cases es with
  | nil => simp [serArr]
  | cons e es =>
    cases es with
    | nil => simp [serArr]
    | cons e2 es2 => simp [serArr]

theorem serObj_length_pos (fs : List (String × JVal)) : 0 < (serObj fs).length := by
  cases fs with
  | nil => simp [serObj]
  | cons f fs =>
    obtain ⟨k, v⟩ := f
    cases fs with
    | nil => simp [serObj, serStr]
    | cons f2 fs2 => simp [serObj, serStr]

/-! ## Round-trip of the JSON codec: parser step lemmas -/

theorem pJ_step_null (fuel : Nat) (rest : List Char) :
    pJ (fuel + 1) ('n' :: rest) = (pKeyword ['u', 'l', 'l'] rest).map (fun r => (.null, r)) := by
  rw [pJ.eq_def]
  simp

theorem pJ_step_true (fuel : Nat) (rest : List Char) :
    pJ (fuel + 1) ('t' :: rest) = (pKeyword ['r', 'u', 'e'] rest).map (fun r => (.bool true, r)) := by
  rw [pJ.eq_def]
  simp

theorem pJ_step_false (fuel : Nat) (rest : List Char) :
    pJ (fuel + 1) ('f' :: rest)
      = (pKeyword ['a', 'l', 's', 'e'] rest).map (fun r => (.bool false, r)) := by
  rw [pJ.eq_def]
  simp

theorem pJ_step_str (fuel : Nat) (rest : List Char) :
    pJ (fuel + 1) ('"' :: rest) = (pStr rest).map (fun p => (.str p.1, p.2)) := by
  rw [pJ.eq_def]
  simp

theorem pJ_step_arr_nil (fuel : Nat) (rest : List Char) :
    pJ (fuel + 1) ('[' :: ']' :: rest) = some (.arr [], rest) := by
  rw [pJ.eq_def]
  simp

theorem pJ_step_arr (fuel : Nat) (c : Char) (rest : List Char) (hc : c ≠ ']') :
    pJ (fuel + 1) ('[' :: c :: rest)
      = (pItems fuel (c :: rest)).map (fun p => (.arr p.1, p.2)) := by
  rw [pJ.eq_def]
  simp only [reduceIte, Char.reduceEq]
  split
  · rename_i heq
    rw [List.cons.injEq] at heq
    exact absurd heq.1 hc
  · rfl

theorem pJ_step_obj_nil (fuel : Nat) (rest : List Char) :
    pJ (fuel + 1) ('\x7b' :: '\x7d' :: rest) = some (.obj [], rest) := by
  rw [pJ.eq_def]
  simp

theorem pJ_step_obj (fuel : Nat) (c : Char) (rest : List Char) (hc : c ≠ '\x7d') :
    pJ (fuel + 1) ('\x7b' :: c :: rest)
      = (pFields fuel (c :: rest)).map (fun p => (.obj p.1, p.2)) := by
  rw [pJ.eq_def]
  simp only [reduceIte, Char.reduceEq]
  split
  · rename_i heq
    rw [List.cons.injEq] at heq
    exact absurd heq.1 hc
  · rfl

theorem pJ_step_neg (fuel : Nat) (rest : List Char) :
    pJ (fuel + 1) ('-' :: rest) = (pNum rest).map (fun p => (.num (-(p.1 : Int)), p.2)) := by
  rw [pJ.eq_def]
  simp

theorem pJ_step_digit (fuel : Nat) (c : Char) (rest : List Char) (hc : c.isDigit = true) :
    pJ (fuel + 1) (c :: rest) = (pNum (c :: rest)).map (fun p => (.num (p.1 : Int), p.2)) := by
  have hn : c ≠ 'n' := by rintro rfl; simp at hc
  have ht : c ≠ 't' := by rintro rfl; simp at hc
  have hf : c ≠ 'f' := by rintro rfl; simp at hc
  have hq : c ≠ '"' := by rintro rfl; simp at hc
  have hl : c ≠ '[' := by rintro rfl; simp at hc
  have hb : c ≠ '\x7b' := by rintro rfl; simp at hc
  have hm : c ≠ '-' := by rintro rfl; simp at hc
  rw [pJ.eq_def]
  simp [hn, ht, hf, hq, hl, hb, hm, hc]

/-! ## Round-trip of the JSON codec: main lemmas -/

theorem serArr_head (e : JVal) (es : List JVal) :
    ∃ c cs, serArr (e :: es) = c :: cs ∧ c ≠ ']' := by
  obtain ⟨c, cs0, hse, hc1, _⟩ := serJ_cons e
  cases es with
  | nil => exact ⟨c, cs0 ++ [']'], by simp [serArr, hse], hc1⟩
  | cons e2 es2 =>
    exact ⟨c, cs0 ++ ',' :: serArr (e2 :: es2), by simp [serArr, hse], hc1⟩

theorem serObj_head (kv : String × JVal) (fs : List (String × JVal)) :
    ∃ cs, serObj (kv :: fs) = '"' :: cs := by
  obtain ⟨k, v⟩ := kv
  cases fs with
  | nil => exact ⟨escList k.data ++ '"' :: ':' :: (serJ v ++ ['\x7d']), by simp [serObj, serStr]⟩
  | cons f2 fs2 =>
    exact ⟨escList k.data ++ '"' :: ':' :: (serJ v ++ ',' :: serObj (f2 :: fs2)),
      by simp [serObj, serStr]⟩

theorem serArr_single_length (e : JVal) :
    (serArr [e]).length = (serJ e).length + 1 := by
  rw [show serArr [e] = serJ e ++ [']'] from rfl]
  simp

theorem serArr_cons_cons_length (e e2 : JVal) (es : List JVal) :
    (serArr (e :: e2 :: es)).length = (serJ e).length + 1 + (serArr (e2 :: es)).length := by
  rw [show serArr (e :: e2 :: es) = serJ e ++ ',' :: serArr (e2 :: es) from rfl]
  simp only [List.length_append, List.length_cons]
  omega

theorem serObj_single_length (kv : String × JVal) :
    (serObj [kv]).length = (serStr kv.1).length + 1 + (serJ kv.2).length + 1 := by
  obtain ⟨k, v⟩ := kv
  simp [serObj]
  omega

theorem serObj_cons_cons_length (kv kv2 : String × JVal)
    (fs : List (String × JVal)) :
    (serObj (kv :: kv2 :: fs)).length
      = (serStr kv.1).length + 1 + (serJ kv.2).length + 1 + (serObj (kv2 :: fs)).length := by
  obtain ⟨k, v⟩ := kv
  simp [serObj]
  omega

theorem serStr_length_pos (k : String) : 0 < (serStr k).length := by
  simp [serStr]

theorem sizeOf_pair_decomp (kv : String × JVal) :
    sizeOf kv = 1 + sizeOf kv.1 + sizeOf kv.2 := by
  obtain ⟨k, v⟩ := kv
  simp

mutual

theorem pJ_serJ (v : JVal) (fuel : Nat) (rest : List Char)
    (hf : (serJ v).length ≤ fuel) (hr : goodRest rest = true) :
    pJ fuel (serJ v ++ rest) = some (v, rest) := by
  cases fuel with
  | zero =>
    have := serJ_length_pos v
    omega
  | succ f =>
    cases v with
    | null =>
      show pJ (f + 1) ('n' :: ('u' :: 'l' :: 'l' :: rest)) = _
      rw [pJ_step_null, show ('u' :: 'l' :: 'l' :: rest : List Char) = ['u', 'l', 'l'] ++ rest
        from rfl, pKeyword_append]
      rfl
    | bool b =>
      cases b with
      | true =>
        show pJ (f + 1) ('t' :: ('r' :: 'u' :: 'e' :: rest)) = _
        rw [pJ_step_true, show ('r' :: 'u' :: 'e' :: rest : List Char) = ['r', 'u', 'e'] ++ rest
          from rfl, pKeyword_append]
        rfl
      | false =>
        show pJ (f + 1) ('f' :: ('a' :: 'l' :: 's' :: 'e' :: rest)) = _
        rw [pJ_step_false, show ('a' :: 'l' :: 's' :: 'e' :: rest : List Char)
          = ['a', 'l', 's', 'e'] ++ rest from rfl, pKeyword_append]
        rfl
    | num n =>
      by_cases hn : n < 0
      · rw [show serJ (.num n) = '-' :: natToDigits n.natAbs from by simp [serJ, serInt, hn],
          List.cons_append, pJ_step_neg, pNum_natToDigits n.natAbs hr]
        simp only [Option.map_some', Option.some.injEq, Prod.mk.injEq, JVal.num.injEq]
        refine ⟨by omega, trivial⟩
      · rw [show serJ (.num n) = natToDigits n.natAbs from by simp [serJ, serInt, hn]]
        obtain ⟨d, ds, hd⟩ := List.exists_cons_of_ne_nil (natToDigits_ne_nil n.natAbs)
        have hdig : d.isDigit = true := natToDigits_all_digits _ d (by rw [hd]; simp)
        rw [hd, List.cons_append, pJ_step_digit f d (ds ++ rest) hdig, ← List.cons_append,
          ← hd, pNum_natToDigits n.natAbs hr]
        simp only [Option.map_some', Option.some.injEq, Prod.mk.injEq, JVal.num.injEq]
        refine ⟨by omega, trivial⟩
    | str s =>
      rw [show serJ (.str s) ++ rest = '"' :: (escList s.data ++ '"' :: rest) from by
        simp [serJ, serStr], pJ_step_str, pStr_escList]
      rfl
    | arr es =>
      cases es with
      | nil => exact pJ_step_arr_nil f rest
      | cons e es' =>
        obtain ⟨c, cs0, hsa, hc⟩ := serArr_head e es'
        have hlen : (serArr (e :: es')).length ≤ f := by
          have : (serJ (.arr (e :: es'))).length = (serArr (e :: es')).length + 1 := by
            simp [serJ]
          omega
        rw [show serJ (.arr (e :: es')) ++ rest = '[' :: (serArr (e :: es') ++ rest) from by
          simp [serJ], hsa, List.cons_append, pJ_step_arr f c (cs0 ++ rest) hc,
          ← List.cons_append, ← hsa, pItems_serArr (e :: es') f rest (by simp) hlen hr]
        rfl
    | obj fs =>
      cases fs with
      | nil => exact pJ_step_obj_nil f rest
      | cons kv fs' =>
        obtain ⟨cs0, hso⟩ := serObj_head kv fs'
        have hlen : (serObj (kv :: fs')).length ≤ f := by
          have : (serJ (.obj (kv :: fs'))).length = (serObj (kv :: fs')).length + 1 := by
            simp [serJ]
          omega
        rw [show serJ (.obj (kv :: fs')) ++ rest = '\x7b' :: (serObj (kv :: fs') ++ rest)
          from by simp [serJ], hso, List.cons_append,
          pJ_step_obj f '"' (cs0 ++ rest) (by decide), ← List.cons_append, ← hso,
          pFields_serObj (kv :: fs') f rest (by simp) hlen hr]
        rfl
termination_by sizeOf v
decreasing_by all_goals (try simp; try subst_vars; try simp [sizeOf_pair_decomp]; try omega)

theorem pItems_serArr (es : List JVal) (fuel : Nat) (rest : List Char)
    (hne : es ≠ []) (hf : (serArr es).length ≤ fuel) (hr : goodRest rest = true) :
    pItems fuel (serArr es ++ rest) = some (es, rest) := by
  cases fuel with
  | zero =>
    have := serArr_length_pos es
    omega
  | succ f =>
    cases es with
    | nil => exact absurd rfl hne
    | cons e es' =>
      cases es' with
      | nil =>
        have hfe : (serJ e).length ≤ f := by
          have := serArr_single_length e
          omega
        rw [show serArr [e] ++ rest = serJ e ++ (']' :: rest) from by simp [serArr],
          pItems.eq_def]
        simp only [pJ_serJ e f (']' :: rest) hfe (by simp [goodRest]), Option.bind_eq_bind,
          Option.some_bind]
        rfl
      | cons e2 es'' =>
        have hfe : (serJ e).length ≤ f := by
          have := serArr_cons_cons_length e e2 es''
          omega
        have hrec : (serArr (e2 :: es'')).length ≤ f := by
          have h1 := serArr_cons_cons_length e e2 es''
          have h2 := serJ_length_pos e
          omega
        rw [show serArr (e :: e2 :: es'') ++ rest
            = serJ e ++ (',' :: (serArr (e2 :: es'') ++ rest)) from by simp [serArr],
          pItems.eq_def]
        simp only [pJ_serJ e f (',' :: (serArr (e2 :: es'') ++ rest)) hfe (by simp [goodRest]),
          Option.bind_eq_bind, Option.some_bind,
          pItems_serArr (e2 :: es'') f rest (by simp) hrec hr]
        rfl
termination_by sizeOf es
decreasing_by all_goals (try simp; try subst_vars; try simp [sizeOf_pair_decomp]; try omega)

theorem pFields_serObj (fs : List (String × JVal)) (fuel : Nat) (rest : List Char)
    (hne : fs ≠ []) (hf : (serObj fs).length ≤ fuel) (hr : goodRest rest = true) :
    pFields fuel (serObj fs ++ rest) = some (fs, rest) := by
  cases fuel with
  | zero =>
    have := serObj_length_pos fs
    omega
  | succ f =>
    cases fs with
    | nil => exact absurd rfl hne
    | cons kv fs' =>
      cases fs' with
      | nil =>
        have hfv : (serJ kv.2).length ≤ f := by
          have h1 := serObj_single_length kv
          have h2 := serStr_length_pos kv.1
          omega
        rw [show serObj [kv] ++ rest
            = '"' :: (escList kv.1.data ++ '"' :: (':' :: (serJ kv.2 ++ ('\x7d' :: rest))))
          from by obtain ⟨k, v⟩ := kv; simp [serObj, serStr], pFields.eq_def]
        simp only [pStr_escList, Option.bind_eq_bind, Option.some_bind,
          pJ_serJ kv.2 f ('\x7d' :: rest) hfv (by simp [goodRest])]
        rfl
      | cons kv2 fs'' =>
        have hfv : (serJ kv.2).length ≤ f := by
          have h1 := serObj_cons_cons_length kv kv2 fs''
          have h2 := serStr_length_pos kv.1
          omega
        have hrec : (serObj (kv2 :: fs'')).length ≤ f := by
          have h1 := serObj_cons_cons_length kv kv2 fs''
          have h2 := serStr_length_pos kv.1
          have h3 := serJ_length_pos kv.2
          omega
        rw [show serObj (kv :: kv2 :: fs'') ++ rest
            = '"' :: (escList kv.1.data
                ++ '"' :: (':' :: (serJ kv.2 ++ (',' :: (serObj (kv2 :: fs'') ++ rest)))))
          from by obtain ⟨k, v⟩ := kv; simp [serObj, serStr], pFields.eq_def]
        simp only [pStr_escList, Option.bind_eq_bind, Option.some_bind,
          pJ_serJ kv.2 f (',' :: (serObj (kv2 :: fs'') ++ rest)) hfv (by simp [goodRest]),
          pFields_serObj (kv2 :: fs'') f rest (by simp) hrec hr]
        rfl
termination_by sizeOf fs
decreasing_by all_goals (try simp; try subst_vars; try simp [sizeOf_pair_decomp]; try omega)

end

/-- Decoding inverts serialization: `JSON.parse (JSON.stringify v) = v`. -/
theorem jparse_jstringify (v : JVal) : jparse (jstringify v) = some v := by
  have h := pJ_serJ v ((serJ v).length + 1) [] (by omega) (by simp [goodRest])
  rw [List.append_nil] at h
  unfold jparse jstringify
  show (match pJ ((serJ v).length + 1) (serJ v) with
        | some (w, []) => some w
        | _ => none) = some v
  rw [h]

/-! ## Claim theorems -/

/-- C1: for every inbound request whose method is not GET and not HEAD, when
the configured secret is non-empty, the request is forwarded upstream (an
outbound request is issued) if and only if its `x-proxy-key` header value
exactly equals the configured secret; on any mismatch or absence the proxy
responds 401 with body `{error: "Unauthorized — invalid X-Proxy-Key"}` and
issues no outbound request. -/
theorem C1_gatekeeper_writes (cfg : Config) (req : InboundRequest)
    (fexec : OutboundRequest → Except JsError UpstreamResponse)
    (hkey : cfg.apiKey ≠ "") (hg : req.method ≠ "GET") (hh : req.method ≠ "HEAD") :
    ((handleRequest cfg req fexec).2 = some (fetchInit cfg req)
        ↔ hdrLookup req.headers "x-proxy-key" = some cfg.apiKey)
    ∧ (hdrLookup req.headers "x-proxy-key" ≠ some cfg.apiKey →
        (handleRequest cfg req fexec).1.status = 401
        ∧ (handleRequest cfg req fexec).1.body
            = .json (.obj [("error", .str "Unauthorized — invalid X-Proxy-Key")])
        ∧ (handleRequest cfg req fexec).2 = none) := by
  have hroute : handleRequest cfg req fexec = handleProxy cfg req fexec := by
    simp [handleRequest, hg]
  rw [hroute]
  by_cases hl : hdrLookup req.headers "x-proxy-key" = some cfg.apiKey
  · have hauth : authRejected cfg req = false := by
      simp [authRejected, hl]
    constructor
    · simp only [handleProxy, hauth, Bool.false_eq_true, if_false]
      cases fexec (fetchInit cfg req) <;> simp [hl]
    · intro hcontra
      exact absurd hl hcontra
  · have hauth : authRejected cfg req = true := by
      simp [authRejected, hkey, hg, hh, hl]
    constructor
    · simp [handleProxy, hauth, hl]
    · intro _
      simp [handleProxy, hauth, err401Body]

/-- Witness for C1 at concrete inputs: with secret `s3cret`, a POST carrying
`x-proxy-key: wrong` gets the 401 reply and no outbound request. -/
theorem C1_gatekeeper_writes_witness :
    (handleRequest { clobTarget := "https://clob.polymarket.com", apiKey := "s3cret" }
        { method := "POST", url := "/order", headers := [("x-proxy-key", "wrong")],
          body := .undef }
        (fun _ => .ok { status := 200, headers := [], body := none })).1.status = 401
    ∧ (handleRequest { clobTarget := "https://clob.polymarket.com", apiKey := "s3cret" }
        { method := "POST", url := "/order", headers := [("x-proxy-key", "wrong")],
          body := .undef }
        (fun _ => .ok { status := 200, headers := [], body := none })).2 = none := by
  have h := C1_gatekeeper_writes
    { clobTarget := "https://clob.polymarket.com", apiKey := "s3cret" }
    { method := "POST", url := "/order", headers := [("x-proxy-key", "wrong")], body := .undef }
    (fun _ => .ok { status := 200, headers := [], body := none })
    (by decide) (by decide) (by decide)
  have h2 := h.2 (by decide)
  exact ⟨h2.1, h2.2.2⟩

/-- C2: the Gatekeeper never blocks reads and is disabled by an empty
secret: any request reaching the catch-all proxy route whose method is GET
or HEAD is forwarded upstream regardless of the secret and of any
`x-proxy-key` header, and when the configured secret is empty every request
of every method is forwarded.  (A GET whose path is `/health` is answered
by the Health Reporter route instead and never reaches this handler; see
C8/C10.) -/
theorem C2_gatekeeper_reads (cfg : Config) (req : InboundRequest)
    (fexec : OutboundRequest → Except JsError UpstreamResponse)
    (h : req.method = "GET" ∨ req.method = "HEAD" ∨ cfg.apiKey = "") :
    (handleProxy cfg req fexec).2 = some (fetchInit cfg req) := by
  have hauth : authRejected cfg req = false := by
    rcases h with h | h | h <;> simp [authRejected, h]
  simp only [handleProxy, hauth, Bool.false_eq_true, if_false]
  cases fexec (fetchInit cfg req) <;> simp

/-- Witness for C2 at concrete inputs: with a non-empty secret and a wrong
`x-proxy-key`, a GET is still forwarded. -/
theorem C2_gatekeeper_reads_witness :
    (handleProxy { clobTarget := "https://clob.polymarket.com", apiKey := "s3cret" }
        { method := "GET", url := "/book?id=1", headers := [("x-proxy-key", "wrong")],
          body := .undef }
        (fun _ => .ok { status := 200, headers := [], body := none })).2
      = some (fetchInit { clobTarget := "https://clob.polymarket.com", apiKey := "s3cret" }
          { method := "GET", url := "/book?id=1", headers := [("x-proxy-key", "wrong")],
            body := .undef }) :=
  C2_gatekeeper_reads _ _ _ (Or.inl rfl)

/-- Counterexample to C3 as stated, at concrete inputs.  First: the claim
says the outbound header map contains every inbound header other than Host,
Connection, Keep-Alive, Transfer-Encoding and X-Proxy-Key unchanged, but
the request leg also drops `content-length` (line 52).  Second: the claim
says the same hop-by-hop set is removed on the response leg, but the
response filter (line 77) does not remove `keep-alive` (and removes
`content-encoding` instead). -/
theorem C3_counterexample :
    (forwardHeaders { clobTarget := "https://clob.polymarket.com", apiKey := "" }
        { method := "POST", url := "/o", headers := [("content-length", "5")],
          body := .undef }).find? (fun p => p.1 == "content-length") = none
    ∧ responseHeaders [("keep-alive", "timeout=5")] = [("keep-alive", "timeout=5")] := by
  constructor
  · decide
  · decide

/-- C3 (amended): on the request leg every inbound header whose lowercased
name is not among host, x-proxy-key, connection, keep-alive,
transfer-encoding, content-length is forwarded unchanged; every forwarded
header is either such a header or the synthesized `host` binding; the
outbound `host` is the upstream authority.  On the response leg the
(different) dropped set is transfer-encoding, connection, content-encoding:
a relayed header is exactly an upstream header outside that set. -/
theorem C3_header_filtering (cfg : Config) (req : InboundRequest) :
    (∀ p ∈ req.headers, isDroppedReqHeader p.1 = false → p ∈ forwardHeaders cfg req)
    ∧ (∀ p ∈ forwardHeaders cfg req,
        isDroppedReqHeader p.1 = false ∨ p = ("host", urlHost cfg.clobTarget))
    ∧ hdrLookup (forwardHeaders cfg req) "host" = some (urlHost cfg.clobTarget)
    ∧ (∀ (hs : Headers) (p : String × String),
        p ∈ responseHeaders hs ↔ p ∈ hs ∧ isDroppedRespHeader p.1 = false) := by
  refine ⟨?_, ?_, ?_, ?_⟩
  · intro p hp hnd
    simp only [forwardHeaders, List.mem_append]
    left
    rw [List.mem_filter]
    exact ⟨hp, by simp [hnd]⟩
  · intro p hp
    simp only [forwardHeaders, List.mem_append] at hp
    rcases hp with hp | hp
    · rw [List.mem_filter] at hp
      left
      simpa using hp.2
    · right
      simpa using hp
  · have hnone : (req.headers.filter (fun p => !isDroppedReqHeader p.1)).find?
        (fun p => p.1 == "host") = none := by
      rw [List.find?_eq_none]
      intro p hp
      rw [List.mem_filter] at hp
      have hnd : isDroppedReqHeader p.1 = false := by simpa using hp.2
      intro hb
      have : p.1 = "host" := by simpa using hb
      rw [this] at hnd
      exact absurd hnd (by decide)
    simp only [forwardHeaders, hdrLookup, List.find?_append, hnone, Option.none_orElse]
    simp [List.find?]
  · intro hs p
    simp only [responseHeaders, List.mem_filter]
    constructor
    · intro h
      exact ⟨h.1, by simpa using h.2⟩
    · intro h
      exact ⟨h.1, by simp [h.2]⟩

/-- Witness for C3 (amended) at concrete inputs: `x-trace-id` passes
through the request leg; `content-encoding` is removed on the response
leg. -/
theorem C3_header_filtering_witness :
    ("x-trace-id", "abc") ∈ forwardHeaders
        { clobTarget := "https://clob.polymarket.com", apiKey := "s3cret" }
        { method := "POST", url := "/o",
          headers := [("connection", "keep-alive"), ("transfer-encoding", "chunked"),
            ("x-trace-id", "abc")],
          body := .undef }
    ∧ ¬ (("content-encoding", "gzip") ∈ responseHeaders [("content-encoding", "gzip")]) := by
  have h := C3_header_filtering
    { clobTarget := "https://clob.polymarket.com", apiKey := "s3cret" }
    { method := "POST", url := "/o",
      headers := [("connection", "keep-alive"), ("transfer-encoding", "chunked"),
        ("x-trace-id", "abc")],
      body := .undef }
  refine ⟨h.1 ("x-trace-id", "abc") (by decide) (by decide), ?_⟩
  intro hmem
  have h2 := (h.2.2.2 [("content-encoding", "gzip")] ("content-encoding", "gzip")).1 hmem
  exact absurd h2.2 (by decide)

/-- C4: every failure of the outbound `fetch` is caught and translated into
a 502 reply with body `{error: "Proxy error", detail: String(err)}`, the
outbound request having been issued exactly once; the detail string is
non-empty whenever the thrown error's `name` is non-empty (always true for
the `Error` instances `fetch` rejects with).  No error escapes: the handler
is a total function, so every fetch outcome yields a reply rather than a
crash. -/
theorem C4_transport_error (cfg : Config) (req : InboundRequest)
    (fexec : OutboundRequest → Except JsError UpstreamResponse) (e : JsError)
    (hauth : authRejected cfg req = false)
    (herr : fexec (fetchInit cfg req) = .error e) :
    handleProxy cfg req fexec
      = ({ status := 502, headers := [],
           body := .json (.obj [("error", .str "Proxy error"),
                                ("detail", .str (errString e))]) },
         some (fetchInit cfg req))
    ∧ (e.name ≠ "" → errString e ≠ "") := by
  constructor
  · simp [handleProxy, hauth, herr, err502Body]
  · intro hname
    unfold errString
    rw [if_neg hname]
    by_cases hmsg : e.message = ""
    · rw [if_pos hmsg]
      exact hname
    · rw [if_neg hmsg]
      intro hcontra
      have hlen := congrArg String.length hcontra
      rw [String.length_append, String.length_append] at hlen
      have h2 : (": " : String).length = 2 := rfl
      have h0 : ("" : String).length = 0 := rfl
      omega

/-- Witness for C4 at concrete inputs: an oracle that throws
`TypeError: fetch failed` yields the 502 reply with that detail. -/
theorem C4_transport_error_witness :
    (handleProxy { clobTarget := "https://clob.polymarket.com", apiKey := "" }
        { method := "GET", url := "/x", headers := [], body := .undef }
        (fun _ => .error { name := "TypeError", message := "fetch failed" })).1
      = { status := 502, headers := [],
          body := .json (.obj [("error", .str "Proxy error"),
                               ("detail", .str "TypeError: fetch failed")]) }
    ∧ errString { name := "TypeError", message := "fetch failed" } ≠ "" := by
  have h := C4_transport_error { clobTarget := "https://clob.polymarket.com", apiKey := "" }
    { method := "GET", url := "/x", headers := [], body := .undef }
    (fun _ => .error { name := "TypeError", message := "fetch failed" })
    { name := "TypeError", message := "fetch failed" }
    (by decide) rfl
  constructor
  · rw [show ("TypeError: fetch failed" : String)
      = errString { name := "TypeError", message := "fetch failed" } from by decide]
    rw [h.1]
  · exact h.2 (by decide)

/-- Counterexample to C5 as stated, at concrete inputs.  A POST whose body
was parsed to the JSON string `"hi"` is forwarded, but line 61's
`typeof req.body === "string"` test passes the bare characters `hi`
through, and decoding the outbound body fails instead of returning the
original value; and a POST whose body was parsed to the JSON number `0`
(falsy, line 60) is forwarded with no body at all. -/
theorem C5_counterexample :
    (fetchInit { clobTarget := "https://clob.polymarket.com", apiKey := "" }
        { method := "POST", url := "/x", headers := [("content-type", "application/json")],
          body := .val (.str "hi") }).body = some "hi"
    ∧ jparse "hi" = none
    ∧ (fetchInit { clobTarget := "https://clob.polymarket.com", apiKey := "" }
        { method := "POST", url := "/x", headers := [("content-type", "application/json")],
          body := .val (.num 0) }).body = none := by
  refine ⟨rfl, rfl, rfl⟩

/-- C5 (amended): for a forwarded non-GET/HEAD request, a body held as a JS
string (raw bytes from the catch-all parser, or a JSON-parsed string
value) is sent upstream byte-for-byte; a body parsed to a truthy
*non-string* JSON value is re-serialized with `JSON.stringify`, and
decoding the outbound body returns exactly the original value (decode of
encode is lossless); falsy bodies (`null`, `false`, `0`, `""`) are dropped;
and the concrete POST of `{"a":1}` with no content type goes out with
`content-type: application/json` and a body decoding back to `{"a":1}`. -/
theorem C5_body_roundtrip (cfg : Config) (req : InboundRequest) :
    (∀ s : String, req.body = .str s → sendsBody req = true →
      (fetchInit cfg req).body = some s)
    ∧ (∀ s : String, req.body = .val (.str s) → sendsBody req = true →
      (fetchInit cfg req).body = some s)
    ∧ (∀ v : JVal, req.body = .val v → (∀ s, v ≠ .str s) → sendsBody req = true →
      (fetchInit cfg req).body = some (jstringify v)
      ∧ jparse (jstringify v) = some v)
    ∧ (bodyTruthy req.body = false → (fetchInit cfg req).body = none)
    ∧ (hdrLookup (fetchInit { clobTarget := "https://clob.polymarket.com", apiKey := "" }
          { method := "POST", url := "/x", headers := [],
            body := .val (.obj [("a", .num 1)]) }).headers "content-type"
        = some "application/json"
      ∧ (fetchInit { clobTarget := "https://clob.polymarket.com", apiKey := "" }
          { method := "POST", url := "/x", headers := [],
            body := .val (.obj [("a", .num 1)]) }).body
        = some (String.mk ['\x7b', '"', 'a', '"', ':', '1', '\x7d'])
      ∧ jparse (String.mk ['\x7b', '"', 'a', '"', ':', '1', '\x7d'])
        = some (.obj [("a", .num 1)])) := by
  have hser : String.mk ['\x7b', '"', 'a', '"', ':', '1', '\x7d']
      = jstringify (.obj [("a", .num 1)]) := by
    simp [jstringify, serJ, serObj, serStr, escList, escChar, serInt, natToDigits, digitChar]
  refine ⟨?_, ?_, ?_, ?_, rfl, ?_, by rw [hser]; exact jparse_jstringify _⟩
  · intro s hb hs
    simp [fetchInit, requestBody, hs, hb]
  · intro s hb hs
    simp [fetchInit, requestBody, hs, hb]
  · intro v hb hns hs
    constructor
    · cases v with
      | str s => exact absurd rfl (hns s)
      | null => simp [fetchInit, requestBody, hs, hb]
      | bool b => simp [fetchInit, requestBody, hs, hb]
      | num n => simp [fetchInit, requestBody, hs, hb]
      | arr es => simp [fetchInit, requestBody, hs, hb]
      | obj fs => simp [fetchInit, requestBody, hs, hb]
    · exact jparse_jstringify v
  · intro hfalsy
    simp [fetchInit, requestBody, sendsBody, hfalsy]
  · simp [fetchInit, requestBody, sendsBody, bodyTruthy, jsTruthy, jstringify, serJ, serObj,
      serStr, escList, escChar, serInt, natToDigits, digitChar]

/-- Witness for C5 (amended) at concrete inputs: a truthy array body is
re-serialized and decodes back. -/
theorem C5_body_roundtrip_witness :
    (fetchInit { clobTarget := "https://clob.polymarket.com", apiKey := "" }
        { method := "PUT", url := "/y", headers := [],
          body := .val (.arr [.num 1, .bool true]) }).body
      = some (jstringify (.arr [.num 1, .bool true]))
    ∧ jparse (jstringify (.arr [.num 1, .bool true])) = some (.arr [.num 1, .bool true]) :=
  (C5_body_roundtrip { clobTarget := "https://clob.polymarket.com", apiKey := "" }
      { method := "PUT", url := "/y", headers := [],
        body := .val (.arr [.num 1, .bool true]) }).2.2.1
    (.arr [.num 1, .bool true]) rfl (fun _s h => JVal.noConfusion h) rfl

/-- C6: on a successful upstream response the relay is incremental: when
the upstream `response.body` is a stream, the reply body is that stream
passed through (`Readable.fromWeb`, line 85) rather than a buffered
string — so bytes reach the caller as they arrive and memory stays bounded
for arbitrarily large payloads; when the upstream sends no body, the empty
string is sent with the upstream status and the filtered headers still
relayed. -/
theorem C6_streaming_relay (cfg : Config) (req : InboundRequest)
    (fexec : OutboundRequest → Except JsError UpstreamResponse) (resp : UpstreamResponse)
    (hauth : authRejected cfg req = false)
    (hok : fexec (fetchInit cfg req) = .ok resp) :
    (∀ sid, resp.body = some sid →
      (handleProxy cfg req fexec).1.body = .stream sid)
    ∧ (resp.body = none →
      (handleProxy cfg req fexec).1
        = { status := resp.status, headers := responseHeaders resp.headers,
            body := .text "" })
    ∧ (handleProxy cfg req fexec).1.status = resp.status
    ∧ (handleProxy cfg req fexec).1.headers = responseHeaders resp.headers := by
  refine ⟨?_, ?_, ?_, ?_⟩
  · intro sid hsid
    simp [handleProxy, hauth, hok, relaySuccess, hsid]
  · intro hnone
    simp [handleProxy, hauth, hok, relaySuccess, hnone]
  · simp [handleProxy, hauth, hok, relaySuccess]
  · simp [handleProxy, hauth, hok, relaySuccess]

/-- Witness for C6 at concrete inputs: a streamed upstream body is passed
through as a stream; an absent body yields an empty text body. -/
theorem C6_streaming_relay_witness :
    (handleProxy { clobTarget := "https://clob.polymarket.com", apiKey := "" }
        { method := "GET", url := "/big", headers := [], body := .undef }
        (fun _ => .ok { status := 200, headers := [("x-r", "1")], body := some 7 })).1.body
      = .stream 7
    ∧ (handleProxy { clobTarget := "https://clob.polymarket.com", apiKey := "" }
        { method := "GET", url := "/empty", headers := [], body := .undef }
        (fun _ => .ok { status := 204, headers := [("x-r", "1")], body := none })).1
      = { status := 204, headers := [("x-r", "1")], body := .text "" } := by
  constructor
  · exact (C6_streaming_relay _ _ _ _ (by decide) rfl).1 7 rfl
  · exact (C6_streaming_relay { clobTarget := "https://clob.polymarket.com", apiKey := "" }
      { method := "GET", url := "/empty", headers := [], body := .undef }
      (fun _ => .ok { status := 204, headers := [("x-r", "1")], body := none })
      { status := 204, headers := [("x-r", "1")], body := none }
      (by decide) rfl).2.1 rfl

/-- C7: the claim asserts a configured finite timeout on the outbound call,
but the source passes `fetch` exactly `method`, `headers`, `body` and
`redirect` (lines 66–71) — no timeout and no abort signal, so no
application-configured bound on the wait exists; this theorem evaluates the
options record the code builds, for every request. -/
theorem C7_no_timeout_configured (cfg : Config) (req : InboundRequest) :
    (fetchInit cfg req).timeoutMs = none ∧ (fetchInit cfg req).redirect = "follow" :=
  ⟨rfl, rfl⟩

/-- C8: a GET whose path is `/health` is answered locally with status 200
and body `{status: "ok", region: "eu", target: <upstream base URL>}`,
whatever the secret and headers, and no outbound request is issued. -/
theorem C8_health (cfg : Config) (req : InboundRequest)
    (fexec : OutboundRequest → Except JsError UpstreamResponse)
    (hm : req.method = "GET") (hp : urlPath req.url = "/health") :
    handleRequest cfg req fexec
      = ({ status := 200, headers := [],
           body := .json (.obj [("status", .str "ok"), ("region", .str "eu"),
                                ("target", .str cfg.clobTarget)]) }, none) := by
  simp [handleRequest, hm, hp, healthReply]

/-- Witness for C8 at concrete inputs: GET `/health?x=1` with a wrong
`x-proxy-key` and a non-empty secret still gets the health reply and no
outbound call. -/
theorem C8_health_witness :
    handleRequest { clobTarget := "https://clob.polymarket.com", apiKey := "s3cret" }
        { method := "GET", url := "/health?x=1", headers := [("x-proxy-key", "wrong")],
          body := .undef }
        (fun _ => .ok { status := 500, headers := [], body := none })
      = ({ status := 200, headers := [],
           body := .json (.obj [("status", .str "ok"), ("region", .str "eu"),
                                ("target", .str "https://clob.polymarket.com")]) }, none) :=
  C8_health { clobTarget := "https://clob.polymarket.com", apiKey := "s3cret" }
    { method := "GET", url := "/health?x=1", headers := [("x-proxy-key", "wrong")],
      body := .undef }
    (fun _ => .ok { status := 500, headers := [], body := none }) rfl (by decide)

/-- C9: whenever a GET or HEAD request results in an outbound request, that
outbound request carries no body — regardless of any body the caller
supplied — and its URL is the configured upstream base URL concatenated
with the inbound raw path+query. -/
theorem C9_get_head_no_body (cfg : Config) (req : InboundRequest)
    (fexec : OutboundRequest → Except JsError UpstreamResponse) (o : OutboundRequest)
    (hm : req.method = "GET" ∨ req.method = "HEAD")
    (ho : (handleRequest cfg req fexec).2 = some o) :
    o.body = none ∧ o.url = cfg.clobTarget ++ req.url := by
  have hsb : sendsBody req = false := by
    rcases hm with hm | hm <;> simp [sendsBody, hm]
  have hout : o = fetchInit cfg req := by
    by_cases hhealth : (req.method == "GET" && urlPath req.url == "/health") = true
    · rw [handleRequest, if_pos hhealth] at ho
      exact absurd ho (by simp)
    · rw [handleRequest, if_neg hhealth] at ho
      by_cases hauth : authRejected cfg req = true
      · rw [handleProxy, if_pos hauth] at ho
        exact absurd ho (by simp)
      · rw [handleProxy, if_neg hauth] at ho
        cases hf : fexec (fetchInit cfg req) <;> rw [hf] at ho <;>
          simpa using ho.symm
  rw [hout]
  exact ⟨by simp [fetchInit, requestBody, hsb], rfl⟩

/-- Witness for C9 at concrete inputs: a HEAD request supplied with a body
is forwarded without one, to the concatenated URL. -/
theorem C9_get_head_no_body_witness :
    (fetchInit { clobTarget := "https://clob.polymarket.com", apiKey := "" }
        { method := "HEAD", url := "/book?id=1", headers := [],
          body := .val (.obj [("a", .num 1)]) }).body = none
    ∧ (fetchInit { clobTarget := "https://clob.polymarket.com", apiKey := "" }
        { method := "HEAD", url := "/book?id=1", headers := [],
          body := .val (.obj [("a", .num 1)]) }).url
      = "https://clob.polymarket.com" ++ "/book?id=1" :=
  C9_get_head_no_body { clobTarget := "https://clob.polymarket.com", apiKey := "" }
    { method := "HEAD", url := "/book?id=1", headers := [],
      body := .val (.obj [("a", .num 1)]) }
    (fun _ => .ok { status := 200, headers := [], body := none })
    (fetchInit { clobTarget := "https://clob.polymarket.com", apiKey := "" }
      { method := "HEAD", url := "/book?id=1", headers := [],
        body := .val (.obj [("a", .num 1)]) })
    (Or.inr rfl) rfl

/-- C10 (implicit): only a GET is answered by the Health Reporter; a
request to `/health` with any other method falls through to the catch-all
proxy route, is subject to the Gatekeeper (401 with no outbound call on
rejection), and on authorization is forwarded upstream to
`<upstream base URL>/health...` like any other path. -/
theorem C10_health_other_methods (cfg : Config) (req : InboundRequest)
    (fexec : OutboundRequest → Except JsError UpstreamResponse)
    (_hp : urlPath req.url = "/health") (hm : req.method ≠ "GET") :
    handleRequest cfg req fexec = handleProxy cfg req fexec
    ∧ (authRejected cfg req = true →
        handleRequest cfg req fexec
          = ({ status := 401, headers := [],
               body := .json (.obj [("error",
                  .str "Unauthorized — invalid X-Proxy-Key")]) }, none))
    ∧ (authRejected cfg req = false →
        (handleRequest cfg req fexec).2 = some (fetchInit cfg req)
        ∧ (fetchInit cfg req).url = cfg.clobTarget ++ req.url) := by
  have hroute : handleRequest cfg req fexec = handleProxy cfg req fexec := by
    simp [handleRequest, hm]
  refine ⟨hroute, ?_, ?_⟩
  · intro hauth
    rw [hroute]
    simp [handleProxy, hauth, err401Body]
  · intro hauth
    rw [hroute]
    refine ⟨?_, rfl⟩
    simp only [handleProxy, hauth, Bool.false_eq_true, if_false]
    cases fexec (fetchInit cfg req) <;> simp

/-- Witness for C10 at concrete inputs: POST `/health` with the right key
is forwarded to the upstream `/health`; with a wrong key it gets the 401
reply. -/
theorem C10_health_other_methods_witness :
    (handleRequest { clobTarget := "https://clob.polymarket.com", apiKey := "s3cret" }
        { method := "POST", url := "/health", headers := [("x-proxy-key", "s3cret")],
          body := .undef }
        (fun _ => .ok { status := 200, headers := [], body := none })).2
      = some (fetchInit { clobTarget := "https://clob.polymarket.com", apiKey := "s3cret" }
          { method := "POST", url := "/health", headers := [("x-proxy-key", "s3cret")],
            body := .undef })
    ∧ (fetchInit { clobTarget := "https://clob.polymarket.com", apiKey := "s3cret" }
        { method := "POST", url := "/health", headers := [("x-proxy-key", "s3cret")],
          body := .undef }).url = "https://clob.polymarket.com" ++ "/health" :=
  (C10_health_other_methods { clobTarget := "https://clob.polymarket.com", apiKey := "s3cret" }
      { method := "POST", url := "/health", headers := [("x-proxy-key", "s3cret")],
        body := .undef }
      (fun _ => .ok { status := 200, headers := [], body := none })
      (by decide) (by decide)).2.2 (by decide)
